import Mathlib

/-!
Shallow embedding of the `Ring` container from this repository.

The repository offers the container in two near-duplicate header variants:
`src/ring.h` (with condition-variable blocking pops) and `src/include/ring.h`
(without them).  Both derive from `std::deque` and guard a `_capacity` field
with a mutex.  Since every public operation runs under the single guard, each
call is atomic and the observable state is just the pair
(deque contents, `_capacity`), which we model as a list together with a `Nat`.

Operation bodies below are translated line by line from `src/ring.h`; the one
place where the two variants differ in logic (`resize`) is embedded twice
(`Ring.resize` from `src/ring.h`, `Ring.resizeAlt` from `src/include/ring.h`).
`std::deque::resize` pads with value-initialized elements when growing, which
we model with `default` of an `Inhabited` instance (value initialization of
`int` yields `0`, matching `default : Nat`).
-/

/-- Observable state of a `Ring<T>`: the deque contents (front of the deque is
the head of the list) and the `_capacity` field. -/
structure RingState (T : Type) where
  storage : List T
  capacity : Nat

deriving instance Repr for RingState
deriving instance DecidableEq for RingState

namespace Ring

variable {T : Type}

/-- Constructor `Ring(size_t capacity)` (src/ring.h line 19): empty contents,
the given capacity. -/
def init (capacity : Nat) : RingState T :=
  ⟨[], capacity⟩

/-- Constructors `Ring(std::initializer_list<T>)` and `Ring(I first, I last)`
(src/ring.h lines 23-30): contents copied in order, `_capacity` set to
`std::distance` over the range, i.e. the element count. -/
def ofList (l : List T) : RingState T :=
  ⟨l, l.length⟩

/-- `deque::size()`. -/
def size (r : RingState T) : Nat :=
  r.storage.length

/-- `max_size()` (src/ring.h lines 32-34): returns `_capacity`. -/
def max_size (r : RingState T) : Nat :=
  r.capacity

/-- `std::deque::resize(n)`: truncate at the tail when shrinking, append
value-initialized elements when growing. -/
def dequeResize [Inhabited T] (l : List T) (n : Nat) : List T :=
  l.take n ++ List.replicate (n - l.length) default

/-- `resize(size)` of src/ring.h lines 36-41: `if (_capacity > size)
deque::resize(size); _capacity = size;`. -/
def resize [Inhabited T] (r : RingState T) (n : Nat) : RingState T :=
  ⟨if n < r.capacity then dequeResize r.storage n else r.storage, n⟩

/-- `resize(size)` of src/include/ring.h lines 32-36: `_capacity = size;
deque::resize(size);` unconditionally. -/
def resizeAlt [Inhabited T] (r : RingState T) (n : Nat) : RingState T :=
  ⟨dequeResize r.storage n, n⟩

/-- `push_front(value)` (src/ring.h lines 43-57, both overloads):
`deque::push_front(value); if (deque::size() > _capacity) deque::pop_back();`. -/
def push_front (r : RingState T) (v : T) : RingState T :=
  if (v :: r.storage).length > r.capacity then
    ⟨(v :: r.storage).dropLast, r.capacity⟩
  else ⟨v :: r.storage, r.capacity⟩

/-- `push_back(value)` (src/ring.h lines 68-82, both overloads):
`deque::push_back(value); if (deque::size() > _capacity) deque::pop_front();`. -/
def push_back (r : RingState T) (v : T) : RingState T :=
  if (r.storage ++ [v]).length > r.capacity then
    ⟨(r.storage ++ [v]).tail, r.capacity⟩
  else ⟨r.storage ++ [v], r.capacity⟩

/-- `emplace_front(args...)` (src/ring.h lines 59-66): constructs the element
in place at the front, then applies the same eviction check as `push_front`.
With `v` the constructed element its state effect coincides with `push_front`. -/
def emplace_front (r : RingState T) (v : T) : RingState T :=
  push_front r v

/-- `emplace_back(args...)` (src/ring.h lines 84-91): constructs the element in
place at the back, then applies the same eviction check as `push_back`. -/
def emplace_back (r : RingState T) (v : T) : RingState T :=
  push_back r v

/-- `shrink_to_fit()` (src/ring.h lines 93-97): `_capacity = deque::size();`
(the `deque::shrink_to_fit()` call only releases memory and does not change
the contents). -/
def shrink_to_fit (r : RingState T) : RingState T :=
  ⟨r.storage, r.storage.length⟩

/-- Non-blocking `pop_front()` (src/ring.h lines 99-106): `nullopt` if empty,
otherwise remove and return `deque::front()`. -/
def pop_front (r : RingState T) : Option T × RingState T :=
  match r.storage with
  | [] => (none, r)
  | v :: rest => (some v, ⟨rest, r.capacity⟩)

/-- Non-blocking `pop_back()` (src/ring.h lines 108-115): `nullopt` if empty,
otherwise remove and return `deque::back()`. -/
def pop_back (r : RingState T) : Option T × RingState T :=
  match r.storage.getLast? with
  | none => (none, r)
  | some v => (some v, ⟨r.storage.dropLast, r.capacity⟩)

/-- Blocking `pop_front_wait(const std::atomic_bool& stop)` (src/ring.h lines
117-132), modelled single-threadedly: with no concurrent pusher the predicate
`!deque::empty()` keeps its value across poll intervals, so the loop resolves
at the first `wait_for`.  Non-empty: the predicate holds within the interval,
the loop breaks and the front element is removed and returned.  Empty: the
interval elapses with the predicate false, and `else if (!stop) return
std::nullopt;` gives up exactly when the flag reads `false`; when the flag
reads `true` the loop polls forever, modelled as the outer `none`. -/
def pop_front_wait_flag (r : RingState T) (stop : Bool) :
    Option (Option T × RingState T) :=
  if r.storage.isEmpty then
    if stop then none else some (none, r)
  else some (pop_front r)

/-- Blocking `pop_back_wait(const std::atomic_bool& stop)` (src/ring.h lines
134-149): same structure as `pop_front_wait`, with a 100ms poll interval and
acting on the back element. -/
def pop_back_wait_flag (r : RingState T) (stop : Bool) :
    Option (Option T × RingState T) :=
  if r.storage.isEmpty then
    if stop then none else some (none, r)
  else some (pop_back r)

/-- Flagless `pop_front_wait()` (src/ring.h lines 151-159), modelled
single-threadedly: blocks indefinitely (outer `none`) when empty, otherwise
removes and returns the front element. -/
def pop_front_wait_block (r : RingState T) : Option (T × RingState T) :=
  match r.storage with
  | [] => none
  | v :: rest => some (v, ⟨rest, r.capacity⟩)

/-- Flagless `pop_back_wait()` (src/ring.h lines 161-169). -/
def pop_back_wait_block (r : RingState T) : Option (T × RingState T) :=
  match r.storage.getLast? with
  | none => none
  | some v => some (v, ⟨r.storage.dropLast, r.capacity⟩)

/-- `swap(Ring& that)` (src/ring.h lines 171-175): after the self-check it
calls `std::deque<T>::swap(that)`, which exchanges only the deque base
subobjects; each ring keeps its own `_capacity`.  Result is the pair
(new state of `this`, new state of `that`). -/
def swap (a b : RingState T) : RingState T × RingState T :=
  (⟨b.storage, a.capacity⟩, ⟨a.storage, b.capacity⟩)

/-- `assign(first, last)` (src/ring.h lines 177-184): `deque::assign(first,
last); if (auto size = deque::size(); size > _capacity) _capacity = size;`. -/
def assign (r : RingState T) (l : List T) : RingState T :=
  ⟨l, if l.length > r.capacity then l.length else r.capacity⟩

/-- Copy assignment `operator=(const Ring& that)` (src/ring.h lines 186-191):
after the self-check it calls `std::deque<T>::operator=(that)`, copying only
the deque contents; `_capacity` of the destination is untouched. -/
def copy_assign (a b : RingState T) : RingState T :=
  ⟨b.storage, a.capacity⟩

/-- One public single-ring operation of the container (the two-ring operations
`swap` and `operator=` are treated separately). -/
inductive Op (T : Type) where
  | pushFront (v : T)
  | pushBack (v : T)
  | emplaceFront (v : T)
  | emplaceBack (v : T)
  | popFront
  | popBack
  | popFrontWaitFlag (stop : Bool)
  | popBackWaitFlag (stop : Bool)
  | popFrontWaitBlock
  | popBackWaitBlock
  | resizeOp (n : Nat)
  | shrinkToFit
  | assignOp (l : List T)

/-- State after an operation returns.  For the blocking pops the call may never
return (outer `none` of the wait model); in that case no later operation runs,
so keeping the state unchanged is a sound description of the trace. -/
def applyOp [Inhabited T] (r : RingState T) : Op T → RingState T
  | .pushFront v => push_front r v
  | .pushBack v => push_back r v
  | .emplaceFront v => emplace_front r v
  | .emplaceBack v => emplace_back r v
  | .popFront => (pop_front r).2
  | .popBack => (pop_back r).2
  | .popFrontWaitFlag stop =>
      match pop_front_wait_flag r stop with
      | some p => p.2
      | none => r
  | .popBackWaitFlag stop =>
      match pop_back_wait_flag r stop with
      | some p => p.2
      | none => r
  | .popFrontWaitBlock =>
      match pop_front_wait_block r with
      | some p => p.2
      | none => r
  | .popBackWaitBlock =>
      match pop_back_wait_block r with
      | some p => p.2
      | none => r
  | .resizeOp n => resize r n
  | .shrinkToFit => shrink_to_fit r
  | .assignOp l => assign r l

/-- Run a sequence of operations from a starting state. -/
def runOps [Inhabited T] (r : RingState T) (ops : List (Op T)) : RingState T :=
  ops.foldl applyOp r

/-- One of the public constructors of the container. -/
inductive RingCtor (T : Type) where
  | withCapacity (c : Nat)
  | fromList (l : List T)

/-- State established by a constructor. -/
def RingCtor.state : RingCtor T → RingState T
  | .withCapacity c => init c
  | .fromList l => ofList l

end Ring

section InvariantLemmas

variable {T : Type}

theorem Ring.dequeResize_length [Inhabited T] (l : List T) (n : Nat) :
    (Ring.dequeResize l n).length = n := by
  simp only [Ring.dequeResize, List.length_append, List.length_take,
    List.length_replicate]
  omega

theorem Ring.push_front_size_le (r : RingState T) (v : T)
    (h : r.storage.length ≤ r.capacity) :
    (Ring.push_front r v).storage.length ≤ (Ring.push_front r v).capacity := by
  simp only [Ring.push_front]
  split
  · simpa [List.length_dropLast] using h
  · next hc =>
      simp at hc ⊢
      omega

theorem Ring.push_back_size_le (r : RingState T) (v : T)
    (h : r.storage.length ≤ r.capacity) :
    (Ring.push_back r v).storage.length ≤ (Ring.push_back r v).capacity := by
  simp only [Ring.push_back]
  split
  · simpa [List.length_tail] using h
  · next hc =>
      simp at hc ⊢
      omega

theorem Ring.pop_front_size_le (r : RingState T)
    (h : r.storage.length ≤ r.capacity) :
    (Ring.pop_front r).2.storage.length ≤ (Ring.pop_front r).2.capacity := by
  simp only [Ring.pop_front]
  cases hs : r.storage with
  | nil => simpa using h
  | cons a rest =>
      rw [hs] at h
      simp at h ⊢
      omega

theorem Ring.pop_back_size_le (r : RingState T)
    (h : r.storage.length ≤ r.capacity) :
    (Ring.pop_back r).2.storage.length ≤ (Ring.pop_back r).2.capacity := by
  simp only [Ring.pop_back]
  cases hg : r.storage.getLast? with
  | none => simpa using h
  | some v =>
      simp only [List.length_dropLast]
      omega

theorem Ring.applyOp_size_le [Inhabited T] (r : RingState T) (op : Ring.Op T)
    (h : Ring.size r ≤ Ring.max_size r) :
    Ring.size (Ring.applyOp r op) ≤ Ring.max_size (Ring.applyOp r op) := by
  simp only [Ring.size, Ring.max_size] at h ⊢
  cases op with
  | pushFront v =>
      simpa only [Ring.applyOp] using Ring.push_front_size_le r v h
  | pushBack v =>
      simpa only [Ring.applyOp] using Ring.push_back_size_le r v h
  | emplaceFront v =>
      simpa only [Ring.applyOp, Ring.emplace_front] using
        Ring.push_front_size_le r v h
  | emplaceBack v =>
      simpa only [Ring.applyOp, Ring.emplace_back] using
        Ring.push_back_size_le r v h
  | popFront =>
      simpa only [Ring.applyOp] using Ring.pop_front_size_le r h
  | popBack =>
      simpa only [Ring.applyOp] using Ring.pop_back_size_le r h
  | popFrontWaitFlag stop =>
      simp only [Ring.applyOp, Ring.pop_front_wait_flag]
      by_cases he : r.storage.isEmpty
      · cases stop <;> simp [he, h]
      · simpa [he] using Ring.pop_front_size_le r h
  | popBackWaitFlag stop =>
      simp only [Ring.applyOp, Ring.pop_back_wait_flag]
      by_cases he : r.storage.isEmpty
      · cases stop <;> simp [he, h]
      · simpa [he] using Ring.pop_back_size_le r h
  | popFrontWaitBlock =>
      simp only [Ring.applyOp, Ring.pop_front_wait_block]
      cases hs : r.storage with
      | nil => simpa using h
      | cons a rest =>
          rw [hs] at h
          simp at h ⊢
          omega
  | popBackWaitBlock =>
      simp only [Ring.applyOp, Ring.pop_back_wait_block]
      cases hg : r.storage.getLast? with
      | none => simpa using h
      | some v =>
          simp only [List.length_dropLast]
          omega
  | resizeOp n =>
      simp only [Ring.applyOp, Ring.resize]
      split
      · simp [Ring.dequeResize_length]
      · next hc =>
          show r.storage.length ≤ n
          omega
  | shrinkToFit =>
      simp [Ring.applyOp, Ring.shrink_to_fit]
  | assignOp l =>
      simp only [Ring.applyOp, Ring.assign]
      split
      · show l.length ≤ l.length
        omega
      · next hc =>
          show l.length ≤ r.capacity
          omega

theorem Ring.runOps_size_le [Inhabited T] (r : RingState T)
    (ops : List (Ring.Op T)) (h : Ring.size r ≤ Ring.max_size r) :
    Ring.size (Ring.runOps r ops) ≤ Ring.max_size (Ring.runOps r ops) := by
  induction ops generalizing r with
  | nil => simpa [Ring.runOps] using h
  | cons op rest ih =>
      simpa [Ring.runOps] using ih (Ring.applyOp r op)
        (Ring.applyOp_size_le r op h)

theorem Ring.pop_front_of_ne_nil (r : RingState T) (h : r.storage ≠ []) :
    Ring.pop_front r = (r.storage.head?, ⟨r.storage.tail, r.capacity⟩) := by
  simp only [Ring.pop_front]
  cases hs : r.storage with
  | nil => exact absurd hs h
  | cons a rest => simp

theorem Ring.pop_back_of_ne_nil (r : RingState T) (h : r.storage ≠ []) :
    Ring.pop_back r = (r.storage.getLast?, ⟨r.storage.dropLast, r.capacity⟩) := by
  simp only [Ring.pop_back]
  cases hg : r.storage.getLast? with
  | none =>
      rw [List.getLast?_eq_none_iff] at hg
      exact absurd hg h
  | some w => simp

end InvariantLemmas

/-- C1: the claim as stated is false.  Copy assignment (one of the listed
public operations) copies the source contents without touching the
destination capacity, so after `Ring<int> a(0); Ring<int> b{1, 2}; a = b;`
the ring `a` holds 2 elements while `a.max_size()` is still 0. -/
theorem ring_size_invariant_counterexample :
    ¬ (Ring.size (Ring.copy_assign (Ring.init 0) (Ring.ofList ([1, 2] : List Nat)))
        ≤ Ring.max_size
            (Ring.copy_assign (Ring.init 0) (Ring.ofList ([1, 2] : List Nat)))) := by
  decide

/-- C1 (amended): for every constructed ring and every sequence of the public
single-ring operations — construction, push_front/push_back,
emplace_front/emplace_back, pop_front/pop_back, the blocking waits, resize,
shrink_to_fit and assign, i.e. all listed operations except swap and copy
assignment — after each call returns, `size() ≤ max_size()`. -/
theorem ring_ops_preserve_size_le_max_size {T : Type} [Inhabited T]
    (c : Ring.RingCtor T) (ops : List (Ring.Op T)) :
    Ring.size (Ring.runOps c.state ops)
      ≤ Ring.max_size (Ring.runOps c.state ops) := by
  apply Ring.runOps_size_le
  cases c with
  | withCapacity n =>
      simp [Ring.RingCtor.state, Ring.init, Ring.size, Ring.max_size]
  | fromList l =>
      simp [Ring.RingCtor.state, Ring.ofList, Ring.size, Ring.max_size]

/-- C2: each push/emplace inserts the new element at the named end; when the
resulting count exceeds the capacity, exactly one element is evicted from the
opposite end (the post-insertion sequence loses exactly its element at the
other end and nothing else); the capacity is untouched.  In particular a ring
of capacity 3 holds [2, 3, 4] after push_back of 1, 2, 3, 4 and [4, 3, 2]
after push_front of 1, 2, 3, 4. -/
theorem ring_push_inserts_and_evicts_opposite {T : Type} (r : RingState T)
    (v : T) :
    ((r.storage.length + 1 ≤ r.capacity →
        (Ring.push_back r v).storage = r.storage ++ [v]
      ∧ (Ring.push_front r v).storage = v :: r.storage)
   ∧ (r.storage.length + 1 > r.capacity →
        (∃ w, r.storage ++ [v] = w :: (Ring.push_back r v).storage)
      ∧ (∃ w, v :: r.storage = (Ring.push_front r v).storage ++ [w])
      ∧ (Ring.push_back r v).storage.length = r.storage.length
      ∧ (Ring.push_front r v).storage.length = r.storage.length))
  ∧ Ring.emplace_back r v = Ring.push_back r v
  ∧ Ring.emplace_front r v = Ring.push_front r v
  ∧ (Ring.push_back r v).capacity = r.capacity
  ∧ (Ring.push_front r v).capacity = r.capacity
  ∧ (Ring.runOps (Ring.init 3) [Ring.Op.pushBack 1, Ring.Op.pushBack 2,
      Ring.Op.pushBack 3, Ring.Op.pushBack 4]).storage = ([2, 3, 4] : List Nat)
  ∧ (Ring.runOps (Ring.init 3) [Ring.Op.pushFront 1, Ring.Op.pushFront 2,
      Ring.Op.pushFront 3, Ring.Op.pushFront 4]).storage
        = ([4, 3, 2] : List Nat) := by
  refine ⟨⟨?_, ?_⟩, rfl, rfl, ?_, ?_, by decide, by decide⟩
  · intro h
    constructor
    · simp only [Ring.push_back]
      rw [if_neg (by simp; omega)]
    · simp only [Ring.push_front]
      rw [if_neg (by simp; omega)]
  · intro h
    refine ⟨?_, ?_, ?_, ?_⟩
    · simp only [Ring.push_back]
      rw [if_pos (by simp; omega)]
      obtain ⟨a, rest, hs⟩ : ∃ a rest, r.storage ++ [v] = a :: rest := by
        cases hx : r.storage ++ [v] with
        | nil => simp at hx
        | cons a rest => exact ⟨a, rest, rfl⟩
      exact ⟨a, by rw [hs]; rfl⟩
    · refine ⟨(v :: r.storage).getLast (by simp), ?_⟩
      simp only [Ring.push_front]
      rw [if_pos (by simp; omega)]
      exact (List.dropLast_append_getLast (by simp)).symm
    · simp only [Ring.push_back]
      rw [if_pos (by simp; omega)]
      simp [List.length_tail]
    · simp only [Ring.push_front]
      rw [if_pos (by simp; omega)]
      simp
  · simp only [Ring.push_back]
    split <;> rfl
  · simp only [Ring.push_front]
    split <;> rfl

/-- Witness for C2: the non-overflow branch on an empty ring of capacity 3,
and the overflow branch on a full ring of capacity 2. -/
theorem ring_push_inserts_and_evicts_opposite_witness :
    ((Ring.push_back (Ring.init 3 : RingState Nat) 5).storage
        = (Ring.init 3 : RingState Nat).storage ++ [5])
  ∧ (∃ w, (Ring.ofList ([9, 8] : List Nat)).storage ++ [5]
        = w :: (Ring.push_back (Ring.ofList ([9, 8] : List Nat)) 5).storage) :=
  ⟨((ring_push_inserts_and_evicts_opposite (Ring.init 3 : RingState Nat) 5).1.1
      (by decide)).1,
   ((ring_push_inserts_and_evicts_opposite (Ring.ofList ([9, 8] : List Nat)) 5).1.2
      (by decide)).1⟩

/-- C3: evidence on the code at concrete inputs.  The claim's truncation and
capacity clauses hold, but its "no placeholder is ever inserted" clause is
contradicted by both source variants: in src/ring.h the growth guard compares
the new capacity with the old capacity instead of the element count, so
`Ring<int> r(4); r.push_back(1); r.resize(3);` pads the contents to
[1, 0, 0]; in src/include/ring.h `resize` calls `deque::resize`
unconditionally, so `Ring<int> r{1, 2}; r.resize(5);` pads to
[1, 2, 0, 0, 0]. -/
theorem ring_resize_pads_with_placeholders :
    (Ring.resize (Ring.push_back (Ring.init 4 : RingState Nat) 1) 3).storage
      = [1, 0, 0]
  ∧ (Ring.resize (Ring.push_back (Ring.init 4 : RingState Nat) 1) 3).capacity = 3
  ∧ (Ring.resizeAlt (Ring.ofList ([1, 2] : List Nat)) 5).storage
      = [1, 2, 0, 0, 0]
  ∧ (Ring.resizeAlt (Ring.ofList ([1, 2] : List Nat)) 5).capacity = 5
  ∧ (Ring.resize (Ring.ofList ([1, 2, 3, 4, 5] : List Nat)) 2).storage = [1, 2]
  ∧ (Ring.resize (Ring.ofList ([1, 2, 3, 4, 5] : List Nat)) 2).capacity = 2 := by
  decide

/-- C4: in the single-threaded model of the flagged blocking pops, a non-empty
ring yields the element at the named end (removed and returned) within the
first poll interval; an empty ring with the cancellation flag reading `false`
("not cancelled") gives up and returns the absent-value result with the ring
unchanged.  The functions are total, so no case raises an error for
emptiness. -/
theorem ring_pop_wait_gives_up_when_not_cancelled {T : Type} (r : RingState T)
    (stop : Bool) :
    (r.storage ≠ [] →
        Ring.pop_front_wait_flag r stop
          = some (r.storage.head?, ⟨r.storage.tail, r.capacity⟩)
      ∧ Ring.pop_back_wait_flag r stop
          = some (r.storage.getLast?, ⟨r.storage.dropLast, r.capacity⟩))
  ∧ (r.storage = [] → stop = false →
        Ring.pop_front_wait_flag r stop = some (none, r)
      ∧ Ring.pop_back_wait_flag r stop = some (none, r)) := by
  constructor
  · intro h
    have he : r.storage.isEmpty = false := by
      simpa [List.isEmpty_iff] using h
    constructor
    · simp only [Ring.pop_front_wait_flag, he]
      rw [Ring.pop_front_of_ne_nil r h]
      simp
    · simp only [Ring.pop_back_wait_flag, he]
      rw [Ring.pop_back_of_ne_nil r h]
      simp
  · intro h hstop
    constructor
    · simp [Ring.pop_front_wait_flag, h, hstop]
    · simp [Ring.pop_back_wait_flag, h, hstop]

/-- Witness for C4: a one-element ring with the flag set (non-empty branch)
and an empty ring with the flag clear (give-up branch). -/
theorem ring_pop_wait_gives_up_when_not_cancelled_witness :
    (Ring.pop_front_wait_flag (Ring.ofList ([4] : List Nat)) true
        = some ((Ring.ofList ([4] : List Nat)).storage.head?,
            ⟨(Ring.ofList ([4] : List Nat)).storage.tail,
             (Ring.ofList ([4] : List Nat)).capacity⟩))
  ∧ (Ring.pop_front_wait_flag (Ring.init 5 : RingState Nat) false
        = some (none, (Ring.init 5 : RingState Nat))) :=
  ⟨((ring_pop_wait_gives_up_when_not_cancelled
      (Ring.ofList ([4] : List Nat)) true).1 (by decide)).1,
   ((ring_pop_wait_gives_up_when_not_cancelled
      (Ring.init 5 : RingState Nat) false).2 (by decide) rfl).1⟩

/-- C5: the claim as stated is false.  `swap` calls
`std::deque<T>::swap(that)`, exchanging only the deque contents; each ring
keeps its own `_capacity`.  With `a = Ring{1}` (capacity 1) and
`b = Ring{2, 3}` (capacity 2), after `a.swap(b)` the ring `a` does not equal
pre-swap `b`: its capacity is still 1, not 2. -/
theorem ring_swap_counterexample :
    ¬ ((Ring.swap (Ring.ofList ([1] : List Nat))
          (Ring.ofList ([2, 3] : List Nat))).1
        = Ring.ofList ([2, 3] : List Nat)
     ∧ (Ring.swap (Ring.ofList ([1] : List Nat))
          (Ring.ofList ([2, 3] : List Nat))).2
        = Ring.ofList ([1] : List Nat)) := by
  decide

/-- C5 (amended): after `a.swap(b)` the stored elements are exchanged while
each ring keeps its own pre-swap capacity; self-swap leaves the ring
unchanged. -/
theorem ring_swap_exchanges_storage_only {T : Type} (a b : RingState T) :
    (Ring.swap a b).1.storage = b.storage
  ∧ (Ring.swap a b).2.storage = a.storage
  ∧ (Ring.swap a b).1.capacity = a.capacity
  ∧ (Ring.swap a b).2.capacity = b.capacity
  ∧ Ring.swap a a = (a, a) :=
  ⟨rfl, rfl, rfl, rfl, rfl⟩

/-- C6: the non-blocking pops on an empty ring return the absent-value
sentinel and leave the ring unchanged; on a non-empty ring they remove and
return the element at the named end.  The functions are total, so no case
raises an error or blocks. -/
theorem ring_pop_empty_returns_sentinel {T : Type} (r : RingState T) :
    (r.storage = [] →
        Ring.pop_front r = (none, r) ∧ Ring.pop_back r = (none, r))
  ∧ (r.storage ≠ [] →
        Ring.pop_front r = (r.storage.head?, ⟨r.storage.tail, r.capacity⟩)
      ∧ Ring.pop_back r
          = (r.storage.getLast?, ⟨r.storage.dropLast, r.capacity⟩)) := by
  constructor
  · intro h
    constructor
    · simp [Ring.pop_front, h]
    · simp [Ring.pop_back, h]
  · intro h
    exact ⟨Ring.pop_front_of_ne_nil r h, Ring.pop_back_of_ne_nil r h⟩

/-- Witness for C6: the empty branch on a default-constructed ring and the
non-empty branch on a two-element ring. -/
theorem ring_pop_empty_returns_sentinel_witness :
    (Ring.pop_front (Ring.init 7 : RingState Nat)
        = (none, (Ring.init 7 : RingState Nat)))
  ∧ (Ring.pop_back (Ring.ofList ([1, 2] : List Nat))
        = ((Ring.ofList ([1, 2] : List Nat)).storage.getLast?,
           ⟨(Ring.ofList ([1, 2] : List Nat)).storage.dropLast,
            (Ring.ofList ([1, 2] : List Nat)).capacity⟩)) :=
  ⟨((ring_pop_empty_returns_sentinel (Ring.init 7 : RingState Nat)).1 rfl).1,
   ((ring_pop_empty_returns_sentinel
      (Ring.ofList ([1, 2] : List Nat))).2 (by decide)).2⟩

/-- C7: copy assignment copies the element contents only: afterwards the
destination's stored elements equal the source's, while the destination's
capacity keeps its pre-assignment value; self-assignment leaves the ring
unchanged. -/
theorem ring_copy_assign_contents_only {T : Type} (a b : RingState T) :
    (Ring.copy_assign a b).storage = b.storage
  ∧ (Ring.copy_assign a b).capacity = a.capacity
  ∧ Ring.copy_assign a a = a :=
  ⟨rfl, rfl, rfl⟩

/-- C8: `assign(first, last)` replaces the entire contents with exactly the
elements of the range in order; a range longer than the capacity raises the
capacity to the range length (no element is evicted), otherwise the capacity
is unchanged. -/
theorem ring_assign_replaces_and_expands {T : Type} (r : RingState T)
    (l : List T) :
    (Ring.assign r l).storage = l
  ∧ (l.length > r.capacity → (Ring.assign r l).capacity = l.length)
  ∧ (l.length ≤ r.capacity → (Ring.assign r l).capacity = r.capacity) := by
  refine ⟨rfl, ?_, ?_⟩
  · intro h
    simp only [Ring.assign]
    rw [if_pos h]
  · intro h
    simp only [Ring.assign]
    rw [if_neg (by omega)]

/-- Witness for C8: a three-element range into a ring of capacity 2
(auto-expansion) and a one-element range into a ring of capacity 2
(capacity kept). -/
theorem ring_assign_replaces_and_expands_witness :
    ((Ring.assign (Ring.init 2 : RingState Nat) [1, 2, 3]).capacity = 3)
  ∧ ((Ring.assign (Ring.init 2 : RingState Nat) [7]).capacity
        = (Ring.init 2 : RingState Nat).capacity) :=
  ⟨(ring_assign_replaces_and_expands (Ring.init 2 : RingState Nat)
      [1, 2, 3]).2.1 (by decide),
   (ring_assign_replaces_and_expands (Ring.init 2 : RingState Nat)
      [7]).2.2 (by decide)⟩

/-- C9: a ring constructed from an initializer list or an iterator range holds
exactly the given elements in their original order, and its capacity equals
the number of given elements. -/
theorem ring_range_construction_tight {T : Type} (l : List T) :
    (Ring.ofList l).storage = l ∧ (Ring.ofList l).capacity = l.length :=
  ⟨rfl, rfl⟩

/-- C10: the claim as stated is false.  A ring with capacity 0 can hold
elements (reachable via copy assignment, which does not touch the capacity);
pushing onto such a ring evicts one element from the opposite end, not the
just-inserted one, so the ring does not end up empty.  Concretely:
`Ring<int> a(0); Ring<int> b{1, 2}; a = b; a.push_back(5);` leaves `a` with
two elements. -/
theorem ring_capacity_zero_push_counterexample :
    (Ring.copy_assign (Ring.init 0) (Ring.ofList ([1, 2] : List Nat))).capacity
      = 0
  ∧ ¬ ((Ring.push_back
          (Ring.copy_assign (Ring.init 0) (Ring.ofList ([1, 2] : List Nat)))
          5).storage = []) := by
  decide

/-- C10 (amended): on an empty ring whose capacity is 0, every push and
emplace leaves the ring empty: the just-inserted element is the sole element
and is immediately evicted by the overflow check, so the size stays 0. -/
theorem ring_capacity_zero_push_stays_empty {T : Type} (r : RingState T)
    (v : T) (hcap : r.capacity = 0) (hemp : r.storage = []) :
    (Ring.push_back r v).storage = []
  ∧ (Ring.push_front r v).storage = []
  ∧ (Ring.emplace_back r v).storage = []
  ∧ (Ring.emplace_front r v).storage = [] := by
  have hb : (Ring.push_back r v).storage = [] := by
    simp only [Ring.push_back, hemp, hcap]
    rw [if_pos (by simp)]
    rfl
  have hf : (Ring.push_front r v).storage = [] := by
    simp only [Ring.push_front, hemp, hcap]
    rw [if_pos (by simp)]
    rfl
  exact ⟨hb, hf, hb, hf⟩

/-- Witness for C10 (amended) at a concrete empty capacity-0 ring. -/
theorem ring_capacity_zero_push_stays_empty_witness :
    (Ring.push_back (Ring.init 0 : RingState Nat) 3).storage = [] :=
  (ring_capacity_zero_push_stays_empty (Ring.init 0 : RingState Nat) 3
    rfl rfl).1
